import Mathlib

/-!
Shallow embedding of `src/xquant/portfolio.py` (class `NaivePortfolio`).

Money and prices are rationals (ℚ), positions are integers (ℤ).
Python dictionaries keyed by symbol are embedded as total functions
`String → _`; the dictionary comprehensions over `symbol_list` become
`if s ∈ symbol_list then _ else 0` restrictions where the key set matters.
The data handler `self.bars` is embedded as an explicit argument
`env : String → Bar` giving, per symbol, the latest bar
(`get_latest_bars(sym)[0]`, of which index 1 is the timestamp and index 5
is the close price).  The event queue `self.events` is a `List` of
`Option OrderEvent` (Python's `queue.put` accepts `None`), appended at
the end.
-/

namespace XQuant

/-- The latest bar for a symbol: `[0][1]` is the timestamp, `[0][5]` the
close price. -/
structure Bar where
  datetime : ℤ
  close : ℚ

/-- `FillEvent` as consumed by `update_fill`: `e_type`, symbol, direction
and quantity.  The fill price is not carried; the code re-reads the latest
close. -/
structure FillEvent where
  e_type : String
  symbol : String
  direction : String
  quantity : ℕ

/-- `SignalEvent` as consumed by `update_signal`. -/
structure SignalEvent where
  e_type : String
  symbol : String
  signal_type : String

/-- `OrderEvent(symbol, order_type, quantity, direction)`. -/
structure OrderEvent where
  symbol : String
  order_type : String
  quantity : ℕ
  direction : String
deriving DecidableEq

/-- An entry of `all_positions`: per-symbol quantity plus the `datetime`
key. -/
structure PositionSnapshot where
  pos : String → ℤ
  datetime : ℤ

/-- An entry of `all_holdings`: per-symbol value plus the `datetime`,
`cash`, `commission` and `total` keys. -/
structure HoldingsSnapshot where
  sym : String → ℚ
  datetime : ℤ
  cash : ℚ
  commission : ℚ
  total : ℚ

/-- The mutable state of a `NaivePortfolio`: `symbol_list`,
`current_postitions` (sic), the keys of the `current_holdings` dict, and
the two append-only histories. -/
@[ext]
structure Portfolio where
  symbol_list : List String
  current_positions : String → ℤ
  current_holdings_sym : String → ℚ
  current_holdings_datetime : ℤ
  current_holdings_cash : ℚ
  current_holdings_commission : ℚ
  current_holdings_total : ℚ
  all_positions : List PositionSnapshot
  all_holdings : List HoldingsSnapshot

/-- `NaivePortfolio.__init__` together with `construct_all_positions`,
`construct_all_holdings` and `construct_current_holdings`: zero positions,
full cash, one initial snapshot of each kind dated `start_date`. -/
def construct (symbol_list : List String) (start_date : ℤ)
    (initial_capital : ℚ) : Portfolio where
  symbol_list := symbol_list
  current_positions := fun _ => 0
  current_holdings_sym := fun _ => 0
  current_holdings_datetime := start_date
  current_holdings_cash := initial_capital
  current_holdings_commission := 0
  current_holdings_total := initial_capital
  all_positions := [{ pos := fun _ => 0, datetime := start_date }]
  all_holdings := [{ sym := fun _ => 0, datetime := start_date,
                     cash := initial_capital, commission := 0,
                     total := initial_capital }]

/-- The `fill_dir` computation shared by `update_position_from_fill` and
`update_holdings_from_fill`: start at 0, set to 1 on `'BUY'`, then to -1
on `'SELL'`. -/
def fill_dir (direction : String) : ℤ :=
  let d : ℤ := 0
  let d := if direction = "BUY" then 1 else d
  let d := if direction = "SELL" then -1 else d
  d

/-- `NaivePortfolio.update_position_from_fill`. -/
def update_position_from_fill (p : Portfolio) (fill : FillEvent) : Portfolio :=
  { p with current_positions := fun s =>
      if s = fill.symbol then
        p.current_positions s + fill_dir fill.direction * (fill.quantity : ℤ)
      else p.current_positions s }

/-- `NaivePortfolio.update_holdings_from_fill`: `cost = fill_dir * close *
quantity`, `commission = 3/10000 * cost`; the symbol's entry gains `cost`,
`commission` accumulates, and both `cash` and `total` lose
`cost + commission`. -/
def update_holdings_from_fill (env : String → Bar) (p : Portfolio)
    (fill : FillEvent) : Portfolio :=
  let fill_cost : ℚ := (env fill.symbol).close
  let cost : ℚ := (fill_dir fill.direction : ℚ) * fill_cost * (fill.quantity : ℚ)
  let commission : ℚ := 3 / 10000 * cost
  { p with
    current_holdings_sym := fun s =>
      if s = fill.symbol then p.current_holdings_sym s + cost
      else p.current_holdings_sym s
    current_holdings_commission := p.current_holdings_commission + commission
    current_holdings_cash := p.current_holdings_cash - (cost + commission)
    current_holdings_total := p.current_holdings_total - (cost + commission) }

/-- `NaivePortfolio.update_fill`: on a `'FILL'` event, update positions
then holdings; otherwise do nothing. -/
def update_fill (env : String → Bar) (p : Portfolio) (event : FillEvent) :
    Portfolio :=
  if event.e_type = "FILL" then
    update_holdings_from_fill env (update_position_from_fill p event) event
  else p

/-- `NaivePortfolio.update_timeindex`: append a position snapshot copying
`current_postitions` over `symbol_list`, and a holdings snapshot carrying
cash/commission forward and adding each symbol's
`current_position * latest close` to `total`.  `current_*` is not
touched. -/
def update_timeindex (env : String → Bar) (p : Portfolio) : Portfolio :=
  let dt := (env (p.symbol_list.headD "")).datetime
  let dp : PositionSnapshot :=
    { pos := fun s => if s ∈ p.symbol_list then p.current_positions s else 0
      datetime := dt }
  let mv : String → ℚ := fun s => (p.current_positions s : ℚ) * (env s).close
  let dh : HoldingsSnapshot :=
    { sym := fun s => if s ∈ p.symbol_list then mv s else 0
      datetime := dt
      cash := p.current_holdings_cash
      commission := p.current_holdings_commission
      total := p.current_holdings_total + (p.symbol_list.map mv).sum }
  { p with
    all_positions := p.all_positions ++ [dp]
    all_holdings := p.all_holdings ++ [dh] }

/-- `NaivePortfolio.generate_naive_order`: the sequence of four `if`
statements over a `None`-initialised `order`. -/
def generate_naive_order (p : Portfolio) (signal : SignalEvent) :
    Option OrderEvent :=
  let order : Option OrderEvent := none
  let symbol := signal.symbol
  let direction := signal.signal_type
  let mkt_quantity : ℕ := 100
  let cur_quantity := p.current_positions symbol
  let order_type := "MKT"
  let order := if direction = "LONG" ∧ cur_quantity = 0 then
    some ⟨symbol, order_type, mkt_quantity, "BUY"⟩ else order
  let order := if direction = "SHORT" ∧ cur_quantity = 0 then
    some ⟨symbol, order_type, mkt_quantity, "SELL"⟩ else order
  let order := if direction = "EXIT" ∧ cur_quantity > 0 then
    some ⟨symbol, order_type, cur_quantity.natAbs, "SELL"⟩ else order
  let order := if direction = "EXIT" ∧ cur_quantity < 0 then
    some ⟨symbol, order_type, cur_quantity.natAbs, "BUY"⟩ else order
  order

/-- `NaivePortfolio.update_signal`: on a `'SIGNAL'` event,
unconditionally `put` the result of `generate_naive_order` (which may be
`None`) on the events queue. -/
def update_signal (p : Portfolio) (event : SignalEvent)
    (events : List (Option OrderEvent)) : List (Option OrderEvent) :=
  if event.e_type = "SIGNAL" then events ++ [generate_naive_order p event]
  else events

/-- Helper for `pct_change`: given the previous total, the list of
per-step percentage changes `(t - prev) / prev`. -/
def pct_change_go (prev : ℚ) : List ℚ → List ℚ
  | [] => []
  | t :: rest => (t - prev) / prev :: pct_change_go t rest

/-- pandas `Series.pct_change`: `NaN` (here `none`) at index 0,
`(t[i] - t[i-1]) / t[i-1]` afterwards. -/
def pct_change : List ℚ → List (Option ℚ)
  | [] => []
  | t :: rest => none :: (pct_change_go t rest).map some

/-- pandas `Series.cumprod` with its default `skipna=True`: `NaN` entries
stay `NaN` and do not contribute to the running product. -/
def cumprod_skipna (acc : ℚ) : List (Option ℚ) → List (Option ℚ)
  | [] => []
  | none :: rest => none :: cumprod_skipna acc rest
  | some x :: rest => some (acc * x) :: cumprod_skipna (acc * x) rest

/-- The `equity_curve` column of `create_equity_curve_dataframe`:
`(1.0 + returns).cumprod()` where `returns = totals.pct_change()`
(adding 1 to `NaN` is `NaN`). -/
def equity_curve (totals : List ℚ) : List (Option ℚ) :=
  cumprod_skipna 1 ((pct_change totals).map (Option.map (fun r => 1 + r)))

/-- `NaivePortfolio.create_equity_curve_dataframe`: the `returns` and
`equity_curve` columns derived from the `total` column of
`all_holdings`. -/
def create_equity_curve_dataframe (p : Portfolio) :
    List (Option ℚ) × List (Option ℚ) :=
  let totals := p.all_holdings.map (fun h => h.total)
  (pct_change totals, equity_curve totals)

/-- One step of the event loop as it touches the portfolio: either a fill
event (with the bar environment current at that moment) or a bar advance
(`update_timeindex`, triggered by a market event). -/
inductive Step where
  | fill (env : String → Bar) (f : FillEvent)
  | advance (env : String → Bar)

/-- Apply one step to the portfolio state. -/
def applyStep (p : Portfolio) : Step → Portfolio
  | .fill env f => update_fill env p f
  | .advance env => update_timeindex env p

/-- Run a sequence of steps from a state. -/
def run (p : Portfolio) : List Step → Portfolio
  | [] => p
  | s :: rest => run (applyStep p s) rest

/-- The deviation of the current snapshot from the spec's accounting
identity: `total - (cash + sum of the symbol entries)`. -/
def currDev (p : Portfolio) : ℚ :=
  p.current_holdings_total -
    (p.current_holdings_cash + (p.symbol_list.map p.current_holdings_sym).sum)

section Scenario

/-- Bar environment where every symbol's latest close is 10. -/
def env10 : String → Bar := fun _ => ⟨0, 10⟩

/-- Bar environment where every symbol's latest close is 12. -/
def env12 : String → Bar := fun _ => ⟨1, 12⟩

/-- BUY fill of 100 AAPL. -/
def buyFill : FillEvent := ⟨"FILL", "AAPL", "BUY", 100⟩

/-- SELL fill of 100 AAPL. -/
def sellFill : FillEvent := ⟨"FILL", "AAPL", "SELL", 100⟩

/-- A fill whose direction is neither BUY nor SELL. -/
def holdFill : FillEvent := ⟨"FILL", "AAPL", "HOLD", 100⟩

/-- An EXIT signal for AAPL. -/
def exitSig : SignalEvent := ⟨"SIGNAL", "AAPL", "EXIT"⟩

/-- The round-trip scenario's initial portfolio: one symbol, 100000 cash. -/
def p0 : Portfolio := construct ["AAPL"] 0 100000

/-- After the BUY fill of 100 at close 10. -/
def p1 : Portfolio := update_fill env10 p0 buyFill

/-- After the bar advance at close 12. -/
def p2 : Portfolio := update_timeindex env12 p1

/-- After the SELL fill of 100 at close 12. -/
def p3 : Portfolio := update_fill env12 p2 sellFill

end Scenario

/-! ### Helper lemmas about sums over the symbol list -/

theorem sum_map_congr_mem (l : List String) (f g : String → ℚ)
    (h : ∀ s ∈ l, f s = g s) : (l.map f).sum = (l.map g).sum := by
  induction l with
  | nil => rfl
  | cons a t ih =>
    simp only [List.map_cons, List.sum_cons]
    rw [h a (by simp), ih (fun s hs => h s (by simp [hs]))]

theorem sum_map_zero_fn (l : List String) :
    (l.map (fun _ => (0 : ℚ))).sum = 0 := by
  induction l with
  | nil => rfl
  | cons a t ih => simp [ih]

theorem sum_map_update_notMem (l : List String) (v : String → ℚ) (a : String)
    (c : ℚ) (ha : a ∉ l) :
    (l.map (fun s => if s = a then v s + c else v s)).sum = (l.map v).sum := by
  apply sum_map_congr_mem
  intro s hs
  have hne : s ≠ a := fun hsa => ha (hsa ▸ hs)
  simp [hne]

theorem sum_map_update_mem (l : List String) (v : String → ℚ) (a : String)
    (c : ℚ) (hnd : l.Nodup) (ha : a ∈ l) :
    (l.map (fun s => if s = a then v s + c else v s)).sum = (l.map v).sum + c := by
  induction l with
  | nil => cases ha
  | cons b t ih =>
    obtain ⟨hbt, hndt⟩ := List.nodup_cons.mp hnd
    rcases List.mem_cons.mp ha with hab | hat
    · subst hab
      simp only [List.map_cons, List.sum_cons]
      rw [sum_map_update_notMem t v a c hbt]
      simp only [if_pos rfl, eq_self_iff_true, if_true]
      ring
    · have hba : b ≠ a := fun hba => hbt (hba ▸ hat)
      simp only [List.map_cons, List.sum_cons, if_neg hba]
      rw [ih hndt hat]
      ring

/-! ### The run invariant: current total equals current cash, and every
recorded holdings snapshot satisfies the accounting identity -/

/-- The invariant maintained by the event loop. -/
def Inv (sl : List String) (p : Portfolio) : Prop :=
  p.symbol_list = sl ∧
  p.current_holdings_total = p.current_holdings_cash ∧
  ∀ h ∈ p.all_holdings, h.total = h.cash + (sl.map h.sym).sum

theorem inv_construct (sl : List String) (sd : ℤ) (cap : ℚ) :
    Inv sl (construct sl sd cap) := by
  refine ⟨rfl, rfl, ?_⟩
  intro h hh
  simp only [construct, List.mem_singleton] at hh
  subst hh
  simp [sum_map_zero_fn]

theorem inv_applyStep (sl : List String) (p : Portfolio) (st : Step)
    (h : Inv sl p) : Inv sl (applyStep p st) := by
  obtain ⟨hsl, htc, hall⟩ := h
  cases st with
  | fill env f =>
    show Inv sl (update_fill env p f)
    unfold update_fill
    split
    · refine ⟨hsl, ?_, ?_⟩
      · simp only [update_holdings_from_fill, update_position_from_fill]
        rw [htc]
      · intro h hh
        exact hall h hh
    · exact ⟨hsl, htc, hall⟩
  | advance env =>
    show Inv sl (update_timeindex env p)
    refine ⟨hsl, htc, ?_⟩
    intro h hh
    simp only [update_timeindex, List.mem_append, List.mem_singleton] at hh
    rcases hh with hh | hh
    · exact hall h hh
    · subst hh
      rw [htc, ← hsl]
      dsimp only
      congr 1
      apply sum_map_congr_mem
      intro s hs
      simp [hs]

theorem inv_run (sl : List String) (p : Portfolio) (steps : List Step)
    (h : Inv sl p) : Inv sl (run p steps) := by
  induction steps generalizing p with
  | nil => exact h
  | cons s rest ih => exact ih _ (inv_applyStep sl p s h)

/-! ### Spec-side description of the equity curve

These definitions follow the spec's words for `equity_curve()`
(section 4.1): period_return at step i is `total[i]/total[i-1] - 1`,
undefined at i = 0, and the cumulative equity multiplier is the running
product of `(1 + period_return)` — amended so that, like the code's
pandas `cumprod`, the multiplier at step 0 is undefined (`none`) rather
than 1.0.  They are compared with the embedded code
(`pct_change`/`equity_curve`) in the C4 theorem. -/

/-- Spec-side period returns after the first step: `t / prev - 1`. -/
def specPeriodReturns_go (prev : ℚ) : List ℚ → List ℚ
  | [] => []
  | t :: rest => (t / prev - 1) :: specPeriodReturns_go t rest

/-- Spec-side period returns: undefined at step 0, `total[i]/total[i-1] - 1`
afterwards. -/
def specPeriodReturns : List ℚ → List (Option ℚ)
  | [] => []
  | t :: rest => none :: (specPeriodReturns_go t rest).map some

/-- Spec-side running product of `(1 + period_return)`. -/
def specEquity_go (acc prev : ℚ) : List ℚ → List ℚ
  | [] => []
  | t :: rest =>
    acc * (1 + (t / prev - 1)) ::
      specEquity_go (acc * (1 + (t / prev - 1))) t rest

/-- Spec-side cumulative equity multiplier: undefined at step 0, the
running product of `(1 + period_return)` afterwards. -/
def specEquity : List ℚ → List (Option ℚ)
  | [] => []
  | t :: rest => none :: (specEquity_go 1 t rest).map some

/-- The running-product core of `cumprod` on a defined (no-`NaN`) list. -/
def scanMul (acc : ℚ) : List ℚ → List ℚ
  | [] => []
  | x :: rest => acc * x :: scanMul (acc * x) rest

theorem cumprod_skipna_map_some (l : List ℚ) : ∀ acc : ℚ,
    cumprod_skipna acc (l.map some) = (scanMul acc l).map some := by
  induction l with
  | nil => intro acc; rfl
  | cons x rest ih =>
    intro acc
    simp only [List.map_cons, cumprod_skipna, scanMul, ih]

theorem pct_go_eq_spec_go (ts : List ℚ) : ∀ prev : ℚ, prev ≠ 0 →
    (∀ x ∈ ts, x ≠ 0) →
    pct_change_go prev ts = specPeriodReturns_go prev ts := by
  induction ts with
  | nil => intro prev _ _; rfl
  | cons t rest ih =>
    intro prev hp hts
    simp only [pct_change_go, specPeriodReturns_go]
    rw [sub_div, div_self hp,
      ih t (hts t (by simp)) (fun x hx => hts x (by simp [hx]))]

theorem scanMul_pct_eq_specEquity_go (ts : List ℚ) : ∀ (acc prev : ℚ),
    prev ≠ 0 → (∀ x ∈ ts, x ≠ 0) →
    scanMul acc ((pct_change_go prev ts).map (fun r => 1 + r)) =
      specEquity_go acc prev ts := by
  induction ts with
  | nil => intro acc prev _ _; rfl
  | cons t rest ih =>
    intro acc prev hp hts
    simp only [pct_change_go, List.map_cons, scanMul, specEquity_go]
    rw [sub_div, div_self hp,
      ih _ t (hts t (by simp)) (fun x hx => hts x (by simp [hx]))]

/-! ### Claim theorems -/

/-- C1 (counterexample): after the BUY fill of 100 AAPL at close 10 from
100000 cash, the current snapshot violates the claimed accounting identity
`total = cash + sum of the per-symbol entries`: total = cash = 98999.7 but
the AAPL entry is 1000, so the right-hand side is 99999.7. -/
theorem C1_counterexample :
    ¬ (p1.current_holdings_total =
        p1.current_holdings_cash +
          (p1.symbol_list.map p1.current_holdings_sym).sum) := by
  simp [p1, p0, update_fill, update_holdings_from_fill,
    update_position_from_fill, construct, fill_dir, env10, buyFill,
    String.reduceEq]

/-- C1 (amended): the identity `total = cash + sum of symbol entries`
holds for the current snapshot at construction, and a bar-advance update
leaves the current snapshot's deviation from it unchanged; but a
fill-driven update (`'FILL'` event for a listed symbol) shifts the
deviation by `-cost` where `cost = fill_dir * close * quantity`, so the
identity fails after any fill with nonzero cost. -/
theorem C1_current_identity_amended (env : String → Bar) (f : FillEvent)
    (p : Portfolio) (hnd : p.symbol_list.Nodup) (hm : f.symbol ∈ p.symbol_list)
    (ht : f.e_type = "FILL") :
    (∀ (sl : List String) (sd : ℤ) (cap : ℚ), currDev (construct sl sd cap) = 0) ∧
    currDev (update_timeindex env p) = currDev p ∧
    currDev (update_fill env p f) =
      currDev p -
        (fill_dir f.direction : ℚ) * (env f.symbol).close * (f.quantity : ℚ) := by
  refine ⟨?_, rfl, ?_⟩
  · intro sl sd cap
    simp [currDev, construct, sum_map_zero_fn]
  · unfold currDev update_fill
    rw [if_pos ht]
    unfold update_holdings_from_fill update_position_from_fill
    dsimp only
    rw [sum_map_update_mem p.symbol_list p.current_holdings_sym f.symbol _ hnd hm]
    ring

/-- C1 (witness for the amended theorem): instantiated with the one-symbol
portfolio and the BUY fill at close 10. -/
theorem C1_current_identity_amended_witness :
    p0.symbol_list.Nodup ∧ buyFill.symbol ∈ p0.symbol_list ∧
    buyFill.e_type = "FILL" ∧
    ((∀ (sl : List String) (sd : ℤ) (cap : ℚ),
        currDev (construct sl sd cap) = 0) ∧
     currDev (update_timeindex env10 p0) = currDev p0 ∧
     currDev (update_fill env10 p0 buyFill) =
       currDev p0 - (fill_dir buyFill.direction : ℚ) *
         (env10 buyFill.symbol).close * (buyFill.quantity : ℚ)) :=
  ⟨by simp [p0, construct], by simp [p0, construct, buyFill], rfl,
   C1_current_identity_amended env10 buyFill p0 (by simp [p0, construct])
     (by simp [p0, construct, buyFill]) rfl⟩

/-- C2 (code evaluation at the failing input): in the round-trip scenario
the BUY leg matches the claim (cash 98999.7, position 100), but after the
SELL fill of 100 at close 12 the code leaves cash = total = 100200.06 and
cumulative commission = -0.06, not the claimed cash of 100199.34: the
commission `3/10000 * cost` is negative on a SELL (cost < 0) and is
credited to cash. -/
theorem C2_round_trip_code_values :
    p1.current_holdings_cash = 989997 / 10 ∧
    p1.current_positions "AAPL" = 100 ∧
    p3.current_holdings_cash = 5010003 / 50 ∧
    p3.current_positions "AAPL" = 0 ∧
    p3.current_holdings_total = p3.current_holdings_cash ∧
    p3.current_holdings_commission = -3 / 50 ∧
    p3.current_holdings_cash ≠ 10019934 / 100 := by
  refine ⟨?_, ?_, ?_, ?_, ?_, ?_, ?_⟩ <;>
    simp [p3, p2, p1, p0, update_fill, update_holdings_from_fill,
      update_position_from_fill, update_timeindex, construct, fill_dir,
      env10, env12, buyFill, sellFill, String.reduceEq] <;>
    norm_num

/-- C3: every holdings snapshot ever recorded in `all_holdings` — the
initial one and every one appended by `update_timeindex` along any
sequence of fill and bar-advance steps — satisfies
`total = cash + sum of the stored per-symbol values`; and the entry
appended by `update_timeindex` stores, for each listed symbol, the market
value `current position * latest close`, with cash carried forward. -/
theorem C3_all_holdings_identity (sl : List String) (sd : ℤ) (cap : ℚ)
    (steps : List Step) (env : String → Bar) (q : Portfolio) (s : String)
    (hs : s ∈ q.symbol_list) :
    (∀ h ∈ (run (construct sl sd cap) steps).all_holdings,
        h.total = h.cash + (sl.map h.sym).sum) ∧
    (∃ dh, (update_timeindex env q).all_holdings = q.all_holdings ++ [dh] ∧
        dh.sym s = (q.current_positions s : ℚ) * (env s).close ∧
        dh.cash = q.current_holdings_cash) := by
  constructor
  · exact (inv_run sl _ steps (inv_construct sl sd cap)).2.2
  · refine ⟨_, rfl, ?_, rfl⟩
    simp [update_timeindex, hs]

/-- C3 (witness): instantiated with the one-symbol portfolio, an empty
run, and a bar advance at close 12 from the post-BUY state. -/
theorem C3_all_holdings_identity_witness :
    "AAPL" ∈ p1.symbol_list ∧
    ((∀ h ∈ (run (construct ["AAPL"] 0 100000) []).all_holdings,
        h.total = h.cash + (["AAPL"].map h.sym).sum) ∧
     (∃ dh, (update_timeindex env12 p1).all_holdings = p1.all_holdings ++ [dh] ∧
        dh.sym "AAPL" = (p1.current_positions "AAPL" : ℚ) * (env12 "AAPL").close ∧
        dh.cash = p1.current_holdings_cash)) :=
  ⟨by simp [p1, p0, update_fill, update_holdings_from_fill,
      update_position_from_fill, construct, buyFill],
   C3_all_holdings_identity ["AAPL"] 0 100000 [] env12 p1 "AAPL"
     (by simp [p1, p0, update_fill, update_holdings_from_fill,
        update_position_from_fill, construct, buyFill])⟩

/-- C4 (counterexample): for the holdings totals of the claim,
`[100000, 100199.7, 100199.34]`, the cumulative equity multiplier at step
0 computed by the code is `NaN` (`none`), not 1.0: pandas `cumprod` keeps
the `NaN` produced by `pct_change` at index 0. -/
theorem C4_equity_curve_starts_nan :
    (equity_curve [100000, 1001997 / 10, 10019934 / 100]).getD 0 (some 0) ≠
      some 1 := by
  simp [equity_curve, pct_change, pct_change_go, cumprod_skipna]

/-- C4 (amended): over any totals list with no zero entry, the code's
`returns` column equals the spec's period returns
(`total[i]/total[i-1] - 1`, undefined at i = 0) and the code's
`equity_curve` column equals the running product of
`(1 + period_return)` — with the multiplier at step 0 undefined (`NaN`),
not 1.0. -/
theorem C4_equity_curve_amended (t : List ℚ) (h : ∀ x ∈ t, x ≠ 0) :
    pct_change t = specPeriodReturns t ∧ equity_curve t = specEquity t := by
  cases t with
  | nil => exact ⟨rfl, rfl⟩
  | cons t0 rest =>
    have h0 : t0 ≠ 0 := h t0 (by simp)
    have hr : ∀ x ∈ rest, x ≠ 0 := fun x hx => h x (by simp [hx])
    have hgo := pct_go_eq_spec_go rest t0 h0 hr
    constructor
    · simp only [pct_change, specPeriodReturns, hgo]
    · simp only [equity_curve, pct_change, specEquity, List.map_cons,
        Option.map_none, List.map_map, cumprod_skipna]
      have hcomp : (Option.map (fun r => 1 + r)) ∘ (some : ℚ → Option ℚ) =
          (some : ℚ → Option ℚ) ∘ (fun r => 1 + r) := by
        funext r
        rfl
      rw [hcomp, ← List.map_map, cumprod_skipna_map_some,
        scanMul_pct_eq_specEquity_go rest 1 t0 h0 hr]

/-- C4 (witness for the amended theorem): instantiated with the totals
`[2, 3]`. -/
theorem C4_equity_curve_amended_witness :
    (∀ x ∈ ([2, 3] : List ℚ), x ≠ 0) ∧
    (pct_change [2, 3] = specPeriodReturns [2, 3] ∧
     equity_curve [2, 3] = specEquity [2, 3]) :=
  ⟨by norm_num, C4_equity_curve_amended [2, 3] (by norm_num)⟩

/-- C5 (counterexample): a fill whose direction is `'HOLD'` — neither BUY
nor SELL — is processed to completion by `update_fill` with no error and
no state change at all: `fill_dir` stays 0, so position, per-symbol value,
commission, cash and total are all unchanged.  No `InvalidDirection`
failure exists in the code. -/
theorem C5_hold_fill_counterexample :
    holdFill.direction ≠ "BUY" ∧ holdFill.direction ≠ "SELL" ∧
    update_fill env10 p0 holdFill = p0 := by
  refine ⟨by simp [holdFill], by simp [holdFill], ?_⟩
  simp [update_fill, update_holdings_from_fill, update_position_from_fill,
    fill_dir, holdFill, p0, construct, env10, String.reduceEq]

/-- C5 (amended): applying a fill whose direction is neither `'BUY'` nor
`'SELL'` is a silent no-op: `update_fill` returns the portfolio unchanged
(it resolves `fill_dir = 0`, so every field update adds or subtracts
zero); no error is signalled. -/
theorem C5_invalid_direction_noop (env : String → Bar) (p : Portfolio)
    (f : FillEvent) (hb : f.direction ≠ "BUY") (hs : f.direction ≠ "SELL") :
    update_fill env p f = p := by
  have hd : fill_dir f.direction = 0 := by simp [fill_dir, hb, hs]
  unfold update_fill
  split
  · unfold update_holdings_from_fill update_position_from_fill
    cases p
    simp [hd]
  · rfl

/-- C5 (witness for the amended theorem): the `'HOLD'` fill on the
initial portfolio. -/
theorem C5_invalid_direction_noop_witness :
    holdFill.direction ≠ "BUY" ∧ holdFill.direction ≠ "SELL" ∧
    update_fill env12 p1 holdFill = p1 :=
  ⟨by simp [holdFill], by simp [holdFill],
   C5_invalid_direction_noop env12 p1 holdFill (by simp [holdFill])
     (by simp [holdFill])⟩

/-- C6: `generate_naive_order` follows exactly the claimed table: LONG on
a flat position gives a BUY market order of 100; SHORT on a flat position
gives a SELL market order of 100; EXIT on a positive position gives a
SELL of `abs(position)`; EXIT on a negative position gives a BUY of
`abs(position)`; everything else gives no order. -/
theorem C6_generate_naive_order_table (p : Portfolio) (s : SignalEvent) :
    generate_naive_order p s =
      (if s.signal_type = "LONG" ∧ p.current_positions s.symbol = 0 then
        some ⟨s.symbol, "MKT", 100, "BUY"⟩
      else if s.signal_type = "SHORT" ∧ p.current_positions s.symbol = 0 then
        some ⟨s.symbol, "MKT", 100, "SELL"⟩
      else if s.signal_type = "EXIT" ∧ 0 < p.current_positions s.symbol then
        some ⟨s.symbol, "MKT", (p.current_positions s.symbol).natAbs, "SELL"⟩
      else if s.signal_type = "EXIT" ∧ p.current_positions s.symbol < 0 then
        some ⟨s.symbol, "MKT", (p.current_positions s.symbol).natAbs, "BUY"⟩
      else none) := by
  simp only [generate_naive_order]
  split_ifs <;>
    first
      | rfl
      | (simp_all [String.reduceEq]; done)
      | (simp_all [String.reduceEq]; omega)

/-- C7 (code evaluation at the failing input): an EXIT signal on a flat
position makes `generate_naive_order` return no order, but
`update_signal` still `put`s that `None` result on the events queue — the
queue grows by one `none` entry instead of staying unchanged. -/
theorem C7_exit_flat_enqueues_none :
    generate_naive_order p0 exitSig = none ∧
    update_signal p0 exitSig [] = [none] ∧
    ([none] : List (Option OrderEvent)) ≠ [] := by
  have hgen : generate_naive_order p0 exitSig = none := by
    simp [generate_naive_order, p0, construct, exitSig, String.reduceEq]
  refine ⟨hgen, ?_, by simp⟩
  rw [update_signal, if_pos (show exitSig.e_type = "SIGNAL" from rfl), hgen,
    List.nil_append]

/-- C8: `update_timeindex` leaves `current_postitions` and every field of
`current_holdings` unchanged, and appends exactly one entry to
`all_positions` and one to `all_holdings`; the appended position entry
copies `current_postitions` on every listed symbol and is tagged with the
bar timestamp of the first listed symbol. -/
theorem C8_update_timeindex_frame (env : String → Bar) (p : Portfolio) :
    (update_timeindex env p).current_positions = p.current_positions ∧
    (update_timeindex env p).current_holdings_sym = p.current_holdings_sym ∧
    (update_timeindex env p).current_holdings_cash = p.current_holdings_cash ∧
    (update_timeindex env p).current_holdings_commission =
      p.current_holdings_commission ∧
    (update_timeindex env p).current_holdings_total =
      p.current_holdings_total ∧
    (update_timeindex env p).current_holdings_datetime =
      p.current_holdings_datetime ∧
    ∃ dp dh,
      (update_timeindex env p).all_positions = p.all_positions ++ [dp] ∧
      (update_timeindex env p).all_holdings = p.all_holdings ++ [dh] ∧
      (∀ s ∈ p.symbol_list, dp.pos s = p.current_positions s) ∧
      dp.datetime = (env (p.symbol_list.headD "")).datetime := by
  refine ⟨rfl, rfl, rfl, rfl, rfl, rfl, _, _, rfl, rfl, ?_, rfl⟩
  intro s hs
  simp [update_timeindex, hs]

/-- C9: the current snapshot always has `total = cash`: this holds at
construction, every `update_fill` changes `total` and `cash` by the same
amount `-(cost + commission)` (so their difference is invariant), and it
holds in every state reachable by any sequence of fills and bar
advances — the current total never includes open-position market value
between bar advances. -/
theorem C9_current_total_eq_cash (sl : List String) (sd : ℤ) (cap : ℚ)
    (env : String → Bar) (f : FillEvent) (p : Portfolio)
    (steps : List Step) :
    (construct sl sd cap).current_holdings_total =
      (construct sl sd cap).current_holdings_cash ∧
    (update_fill env p f).current_holdings_total -
        (update_fill env p f).current_holdings_cash =
      p.current_holdings_total - p.current_holdings_cash ∧
    (run (construct sl sd cap) steps).current_holdings_total =
      (run (construct sl sd cap) steps).current_holdings_cash := by
  refine ⟨rfl, ?_, (inv_run sl _ steps (inv_construct sl sd cap)).2.1⟩
  unfold update_fill
  split
  · unfold update_holdings_from_fill update_position_from_fill
    dsimp only
    ring
  · ring

/-- C10: for every SELL fill with positive latest close price and positive
quantity, the commission increment `3/10000 * cost` is negative (because
`cost = -price * quantity < 0`), so the fill strictly decreases the
cumulative commission field and increases cash by strictly more than the
gross proceeds `price * quantity`. -/
theorem C10_sell_negative_commission (env : String → Bar) (p : Portfolio)
    (f : FillEvent) (hd : f.direction = "SELL") (ht : f.e_type = "FILL")
    (hp : 0 < (env f.symbol).close) (hq : 0 < f.quantity) :
    (update_fill env p f).current_holdings_commission <
      p.current_holdings_commission ∧
    (env f.symbol).close * (f.quantity : ℚ) <
      (update_fill env p f).current_holdings_cash -
        p.current_holdings_cash := by
  have hdir : fill_dir f.direction = -1 := by simp [fill_dir, hd]
  have hq' : (0 : ℚ) < (f.quantity : ℚ) := by exact_mod_cast hq
  have hpos : 0 < (env f.symbol).close * (f.quantity : ℚ) := mul_pos hp hq'
  unfold update_fill
  rw [if_pos ht]
  unfold update_holdings_from_fill update_position_from_fill
  dsimp only
  rw [hdir]
  push_cast
  constructor
  · nlinarith [hpos]
  · nlinarith [hpos]

/-- C10 (witness): the SELL fill of 100 at close 12 applied after the bar
advance. -/
theorem C10_sell_negative_commission_witness :
    sellFill.direction = "SELL" ∧ sellFill.e_type = "FILL" ∧
    0 < (env12 sellFill.symbol).close ∧ 0 < sellFill.quantity ∧
    ((update_fill env12 p2 sellFill).current_holdings_commission <
        p2.current_holdings_commission ∧
     (env12 sellFill.symbol).close * (sellFill.quantity : ℚ) <
       (update_fill env12 p2 sellFill).current_holdings_cash -
         p2.current_holdings_cash) :=
  ⟨rfl, rfl, by norm_num [env12, sellFill], by norm_num [sellFill],
   C10_sell_negative_commission env12 p2 sellFill rfl rfl
     (by norm_num [env12, sellFill]) (by norm_num [sellFill])⟩

end XQuant
